import Mathlib

/-!
# Verification of `bib_seer.py`

A shallow embedding of the citation-discovery tool `bib_seer.py` and proofs
about its aggregation / ranking / report pipeline.

Modelling conventions:
* JSON response documents are modelled as Lean structures whose optional
  fields are `Option`s (`paper.get(k)` with a missing key is `none`).
* The HTTP layer is modelled by two oracles: `search : String → Response`
  gives the parsed document for a first-stage query (the quoted title that
  the script places in the `q` parameter), and `fetch : String → Response`
  gives the parsed document for a second-stage URL (the rewritten
  `serpapi_scholar_link`).  Network transport is out of scope; the oracles
  are total.
* A Python `KeyError` (e.g. `res2["result_id"]` on a dict without the key)
  is modelled by `Except.error`.
* The insertion-ordered Python dict `all_citers` is modelled as an
  association list in first-insertion order; `list(d.items())` is the list
  itself.
* Python's stable `list.sort(key=k, reverse=True)` is modelled by
  `List.mergeSort` with the relation `k b ≤ k a` (stable, descending).
* The float expression `1e6 * count + total` is modelled by the exact
  integer `1000000 * count + total`; for the value ranges reachable here
  (count ≤ 100000) the float arithmetic is exact below 2^53.
* `str.lower` is modelled per character by `Char.toLower` (ASCII lowering;
  the characters retained by the normalizer are ASCII).
-/

/-- The `cited_by` section of a search-result entry
(`inline_links.cited_by` in the JSON).  `{}` is `⟨none, none⟩`. -/
structure CitedBy where
  serpapi_scholar_link : Option String := none
  total : Option Nat := none
  deriving DecidableEq, Repr

/-- The `inline_links` section of a search-result entry. -/
structure InlineLinks where
  cited_by : Option CitedBy := none
  deriving DecidableEq, Repr

/-- One element of an `organic_results` array ("paper object"). -/
structure Paper where
  inline_links : Option InlineLinks := none
  link : Option String := none
  result_id : Option String := none
  title : Option String := none
  deriving DecidableEq, Repr

/-- A parsed search-API response; only the `organic_results` key is read. -/
structure Response where
  organic_results : Option (List Paper) := none
  deriving DecidableEq, Repr

deriving instance DecidableEq for Except

/-- `get_cited_by(paper)`: `paper.get("inline_links", {}).get("cited_by", {})`. -/
def get_cited_by (paper : Paper) : CitedBy :=
  match paper.inline_links with
  | none => {}
  | some il => il.cited_by.getD {}

/-- Python truthiness of the (modelled) `cited_by` dict: a dict is truthy
iff it is non-empty, i.e. at least one of its modelled keys is present. -/
def citedByTruthy (cb : CitedBy) : Bool :=
  cb.serpapi_scholar_link.isSome || cb.total.isSome

/-- The character class `[0-9a-z]` of the normalizing regex. -/
def keepChar (c : Char) : Bool :=
  ('0' ≤ c && c ≤ '9') || ('a' ≤ c && c ≤ 'z')

/-- `norm_title(title)`: `re.sub('[^0-9a-z]+', "", title.lower())` —
lowercase every character, then delete the ones outside `[0-9a-z]`. -/
def norm_title (title : String) : String :=
  String.mk ((title.data.map Char.toLower).filter keepChar)

/-- One left-to-right pass implementing `re.sub("q=.*", "", s)`.  The flag
records whether the scanner is inside a match (deleting up to the next
newline, which `.` does not match); on `q=` outside a match the match
starts; the regex engine resumes scanning right after each match. -/
def stripQAux : Bool → List Char → List Char
  | _, [] => []
  | true, c :: cs => if c = '\n' then c :: stripQAux false cs else stripQAux true cs
  | false, c :: cs =>
    match cs with
    | [] => [c]
    | c2 :: cs2 =>
      if c = 'q' ∧ c2 = '=' then stripQAux true cs2
      else c :: stripQAux false (c2 :: cs2)

/-- Python `re.sub("q=.*", "", s)` on the character list of `s`: every
(leftmost, non-overlapping) match of `q=` followed by the rest of its line
is deleted. -/
def stripQ (l : List Char) : List Char :=
  stripQAux false l

/-- Line 59: `re.sub("q=.*", "", cited_by_link) + "&api_key=" + SERP_API_KEY`. -/
def rewriteCitedByLink (apiKey link : String) : String :=
  String.mk (stripQ link.data) ++ "&api_key=" ++ apiKey

/-- Lines 66–69: the aggregation key of a second-stage result entry —
its `link` if present, else the synthetic string built from `result_id`
(`res2["result_id"]` raises `KeyError` when that key is also absent). -/
def citerKey (res2 : Paper) : Except String String :=
  match res2.link with
  | some l => .ok l
  | none =>
    match res2.result_id with
    | some rid => .ok ("No link found (id: " ++ rid ++ ")")
    | none => .error "KeyError: result_id"

/-- Line 70 on the insertion-ordered dict `all_citers` (default `(0, None)`):
`all_citers[paper_link] = (all_citers[paper_link][0] + 1, res2)`. -/
def updateCiter : List (String × Nat × Paper) → String → Paper →
    List (String × Nat × Paper)
  | [], k, p => [(k, 1, p)]
  | (k', c, p') :: rest, k, p =>
    if k' = k then (k', c + 1, p) :: rest
    else (k', c, p') :: updateCiter rest k p

/-- Lines 65–70: fold the second-stage `organic_results` entries into the
citer map. -/
def foldEntries (m : List (String × Nat × Paper)) :
    List Paper → Except String (List (String × Nat × Paper))
  | [] => .ok m
  | p :: rest =>
    match citerKey p with
    | .error e => .error e
    | .ok k => foldEntries (updateCiter m k p) rest

/-- The first-stage query string: the title wrapped in quotation marks
(the `q` parameter built on line 50). -/
def quoteTitle (title : String) : String :=
  "\"" ++ title ++ "\""

/-- Aggregation state: the citer map in first-insertion order plus the
trace of requests issued to each stage (the second-stage URLs are also
printed, line 61). -/
structure AggState where
  citers : List (String × Nat × Paper) := []
  searchReqs : List String := []
  fetchReqs : List String := []
  deriving DecidableEq, Repr

/-- Lines 47–70, one iteration of the loop over titles. -/
def processTitle (search fetch : String → Response) (apiKey : String)
    (st : AggState) (title : String) : Except String AggState :=
  let q := quoteTitle title
  let res := search q
  let st1 : AggState := { st with searchReqs := st.searchReqs ++ [q] }
  match res.organic_results with
  | none => .ok st1
  | some rs =>
    match rs with
    | [] => .ok st1
    | first :: _ =>
      let cb := get_cited_by first
      if citedByTruthy cb then
        match cb.serpapi_scholar_link with
        | none => .error "KeyError: serpapi_scholar_link"
        | some link0 =>
          let cited_by_link := rewriteCitedByLink apiKey link0
          let st2 : AggState :=
            { st1 with fetchReqs := st1.fetchReqs ++ [cited_by_link] }
          let cite_res := fetch cited_by_link
          match cite_res.organic_results with
          | none => .ok st2
          | some entries =>
            match foldEntries st2.citers entries with
            | .error e => .error e
            | .ok m => .ok { st2 with citers := m }
      else .ok st1

/-- The loop `for title in titles[:100000]` (the slicing is applied by the
caller `aggregate`). -/
def runTitles (search fetch : String → Response) (apiKey : String)
    (st : AggState) : List String → Except String AggState
  | [] => .ok st
  | t :: ts =>
    match processTitle search fetch apiKey st t with
    | .error e => .error e
    | .ok st' => runTitles search fetch apiKey st' ts

/-- Lines 45–70: the aggregation phase of `find_citers_from_titles`. -/
def aggregate (search fetch : String → Response) (apiKey : String)
    (titles : List String) : Except String AggState :=
  runTitles search fetch apiKey {} (titles.take 100000)

/-- The paper's total-citation count with 0 when absent:
`get_cited_by(paper).get("total") or 0`. -/
def totalOf (paper : Paper) : Nat :=
  ((get_cited_by paper).total).getD 0

/-- Line 73's sort key `1e6 * x[1][0] + (get_cited_by(x[1][1]).get("total") or 0)`
as an exact integer. -/
def citerSortKey (e : String × Nat × Paper) : Nat :=
  1000000 * e.2.1 + totalOf e.2.2

/-- Lines 72–74: `list(all_citers.items())` stable-sorted descending by
`citerSortKey` (`reverse=True`). -/
def rankCiters (l : List (String × Nat × Paper)) : List (String × Nat × Paper) :=
  l.mergeSort (fun a b => decide (citerSortKey b ≤ citerSortKey a))

/-- Lines 41–75: `find_citers_from_titles`, returning the ranked citer list
together with the final aggregation state. -/
def find_citers_from_titles (search fetch : String → Response) (apiKey : String)
    (titles : List String) :
    Except String (List (String × Nat × Paper) × AggState) :=
  match aggregate search fetch apiKey titles with
  | .error e => .error e
  | .ok st => .ok (rankCiters st.citers, st)

/-- The header row printed on lines 88–91. -/
def headerLine : String :=
  "Num bib articles cited" ++ "\t" ++ "Num citations received" ++ "\t" ++
    "Link" ++ "\t" ++ "Title"

/-- One data row of the report, line 95's `"%d\t%d\t%s\t%s"`. -/
def reportRow (e : String × Nat × Paper) : String :=
  toString e.2.1 ++ "\t" ++ toString (totalOf e.2.2) ++ "\t" ++ e.1 ++ "\t" ++
    e.2.2.title.getD ""

/-- Lines 92–98: print each ranked entry unless its normalized title is in
the bibliography's normalized-title set (`norm_titles`, modelled as a list
with membership). -/
def reportLines (norm_titles : List String) :
    List (String × Nat × Paper) → List String
  | [] => []
  | e :: rest =>
    if norm_title (e.2.2.title.getD "") ∈ norm_titles then
      reportLines norm_titles rest
    else
      reportRow e :: reportLines norm_titles rest

/-- Observable outcome of a complete run of the script. -/
structure MainOutcome where
  printed : List String := []
  exitCode : Nat := 0
  bibReads : List String := []
  searchReqs : List String := []
  fetchReqs : List String := []
  deriving DecidableEq, Repr

/-- Lines 78–98, the `__main__` block.  `readBib` is the (out-of-scope)
bibliography parser `get_titles_from_bibtex`, modelled as an oracle from
filename to title list; `sys.exit()` exits with status 0. -/
def py_main (readBib : String → List String) (search fetch : String → Response)
    (apiKey : String) (argv : List String) : Except String MainOutcome :=
  if argv.length ≠ 2 then
    .ok { printed := ["Usage:  " ++ argv.headD "" ++ " <bibtex_file>"],
          exitCode := 0 }
  else
    let filename := (argv.drop 1).headD ""
    let titles := readBib filename
    let norm_titles := titles.map norm_title
    match find_citers_from_titles search fetch apiKey titles with
    | .error e => .error e
    | .ok (ranked, st) =>
      .ok { printed := st.fetchReqs ++ [headerLine] ++ reportLines norm_titles ranked,
            exitCode := 0,
            bibReads := [filename],
            searchReqs := st.searchReqs,
            fetchReqs := st.fetchReqs }

/-! ### Predicates used to state the claims -/

/-- Does the character list contain the two-character substring `q=`? -/
def hasQE : List Char → Bool
  | [] => false
  | [_] => false
  | c :: c2 :: rest => (c = 'q' && c2 = '=') || hasQE (c2 :: rest)

/-- The `(hit_count, total_citations)` pair of a ranked entry. -/
def entryPair (e : String × Nat × Paper) : Nat × Nat :=
  (e.2.1, totalOf e.2.2)

/-- `p ≥ q` in the lexicographic order on `(hit count, total citations)`
pairs (the order the spec claims for the ranked output). -/
def lexGe (p q : Nat × Nat) : Prop :=
  q.1 < p.1 ∨ (p.1 = q.1 ∧ q.2 ≤ p.2)

instance (p q : Nat × Nat) : Decidable (lexGe p q) := by
  unfold lexGe; infer_instance

/-- The aggregation keys of the entries of a response are pairwise
distinct (real search responses list each citing paper once). -/
def keysDistinct (r : Response) : Prop :=
  match r.organic_results with
  | none => True
  | some entries => entries.Pairwise (fun p q => citerKey p ≠ citerKey q)

/-- The hit count stored for key `k` in the citer map (0 when absent,
matching the `defaultdict` default `(0, None)`). -/
def countOf : List (String × Nat × Paper) → String → Nat
  | [], _ => 0
  | (k', c, _) :: rest, k => if k' = k then c else countOf rest k

/-! ### Concrete fixtures (oracles and papers) used in counterexamples and
witnesses -/

/-- A first-stage result whose first organic entry carries a `cited_by`
section with follow-up link `l`. -/
def paperCited (l : String) : Paper :=
  { inline_links := some { cited_by := some { serpapi_scholar_link := some l } } }

/-- Citing paper "Foo" with 2,000,000 total citations. -/
def paperFoo : Paper :=
  { link := some "a.com", title := some "Foo",
    inline_links := some { cited_by := some { total := some 2000000 } } }

/-- Citing paper "Bar" with no citation data. -/
def paperBar : Paper :=
  { link := some "b.com", title := some "Bar" }

/-- C1 fixture, first stage: both titles resolve to a result with a
cited-by link. -/
def searchC1 : String → Response := fun q =>
  if q = "\"T1\"" then { organic_results := some [paperCited "L1"] }
  else if q = "\"T2\"" then { organic_results := some [paperCited "L2"] }
  else {}

/-- C1 fixture, second stage: title 1's citers are Foo and Bar, title 2's
citer is Bar again. -/
def fetchC1 : String → Response := fun u =>
  if u = "L1&api_key=K" then { organic_results := some [paperFoo, paperBar] }
  else if u = "L2&api_key=K" then { organic_results := some [paperBar] }
  else {}

/-- C2 fixture, first stage. -/
def searchC2 : String → Response := fun q =>
  if q = "\"T\"" then { organic_results := some [paperCited "L"] } else {}

/-- C2 fixture, second stage: one response listing the same citing paper
twice. -/
def fetchC2 : String → Response := fun u =>
  if u = "L&api_key=K" then { organic_results := some [paperBar, paperBar] }
  else {}

/-- C3 fixture, second stage: one entry with neither `link` nor
`result_id`. -/
def fetchC3 : String → Response := fun u =>
  if u = "L&api_key=K" then { organic_results := some [{}] } else {}

/-- An oracle returning an empty document (no `organic_results` key) for
every request. -/
def emptyOracle : String → Response := fun _ => {}

theorem keepChar_iff (c : Char) :
    keepChar c = true ↔
      (48 ≤ c.toNat ∧ c.toNat ≤ 57) ∨ (97 ≤ c.toNat ∧ c.toNat ≤ 122) := by
  simp only [keepChar, Bool.or_eq_true, Bool.and_eq_true, decide_eq_true_eq,
    Char.le_def]
  constructor
  · rintro (⟨h1, h2⟩ | ⟨h1, h2⟩)
    · exact Or.inl ⟨h1, h2⟩
    · exact Or.inr ⟨h1, h2⟩
  · rintro (⟨h1, h2⟩ | ⟨h1, h2⟩)
    · exact Or.inl ⟨h1, h2⟩
    · exact Or.inr ⟨h1, h2⟩

theorem toLower_of_keepChar {c : Char} (h : keepChar c = true) :
    Char.toLower c = c := by
  rcases (keepChar_iff c).mp h with ⟨h1, h2⟩ | ⟨h1, h2⟩ <;>
    · unfold Char.toLower
      rw [if_neg]
      omega

theorem norm_title_mem_keepChar (s : String) :
    ∀ c ∈ (norm_title s).data, keepChar c = true := by
  intro c hc
  simp only [norm_title] at hc
  exact (List.mem_filter.mp hc).2

theorem norm_title_idem (s : String) :
    norm_title (norm_title s) = norm_title s := by
  simp only [norm_title]
  congr 1
  have hfix : ∀ l : List Char,
      (l.filter keepChar).map Char.toLower = l.filter keepChar := by
    intro l
    rw [List.map_congr_left, List.map_id]
    intro c hc
    exact toLower_of_keepChar (List.mem_filter.mp hc).2
  rw [hfix, List.filter_filter]
  simp

/-! ### C5: the title normalizer -/

/-- C5: `norm_title` is a (total, deterministic) function that is
idempotent, produces only characters in `[0-9a-z]`, and is case- and
punctuation-insensitive in the sense of the spec's example. -/
theorem norm_title_spec :
    (∀ s, norm_title (norm_title s) = norm_title s) ∧
    (∀ s, ∀ c ∈ (norm_title s).data, keepChar c = true) ∧
    norm_title "Deep Learning!" = norm_title "deep learning" :=
  ⟨norm_title_idem, norm_title_mem_keepChar, by rfl⟩

/-- Witness for C5 at concrete inputs. -/
theorem norm_title_spec_witness :
    norm_title (norm_title "Deep Learning!") = norm_title "Deep Learning!" ∧
    keepChar 'd' = true :=
  ⟨norm_title_spec.1 "Deep Learning!",
   norm_title_spec.2.1 "Deep Learning!" 'd' (by decide)⟩

/-! ### C10: `get_cited_by` -/

/-- C10: `get_cited_by` is total on paper records: it returns the nested
`inline_links.cited_by` sub-structure when both levels are present and the
empty mapping (never an error) when `inline_links` or `cited_by` is
absent. -/
theorem get_cited_by_spec (p : Paper) :
    (∀ il cb, p.inline_links = some il → il.cited_by = some cb →
      get_cited_by p = cb) ∧
    (p.inline_links = none → get_cited_by p = {}) ∧
    (∀ il, p.inline_links = some il → il.cited_by = none →
      get_cited_by p = ({} : CitedBy)) := by
  refine ⟨?_, ?_, ?_⟩
  · intro il cb h1 h2
    simp [get_cited_by, h1, h2]
  · intro h
    simp [get_cited_by, h]
  · intro il h1 h2
    simp [get_cited_by, h1, h2]

/-- Witness for C10 at a concrete paper record. -/
theorem get_cited_by_spec_witness :
    get_cited_by (paperCited "L") =
      { serpapi_scholar_link := some "L", total := none } :=
  (get_cited_by_spec (paperCited "L")).1
    { cited_by := some { serpapi_scholar_link := some "L" } }
    { serpapi_scholar_link := some "L" } rfl rfl

/-! ### C9: the 100000-title bound -/

/-- C9: the aggregator only ever looks at the first 100000 input titles:
the whole pipeline gives the same result on `titles` and on
`titles.take 100000`, so any later title contributes nothing. -/
theorem find_citers_take_100000 (search fetch : String → Response)
    (apiKey : String) (titles : List String) :
    find_citers_from_titles search fetch apiKey titles =
      find_citers_from_titles search fetch apiKey (titles.take 100000) := by
  simp [find_citers_from_titles, aggregate, List.take_take]

/-! ### C8: command-line handling -/

/-- C8: invoked with a number of arguments other than exactly one (i.e.
`len(sys.argv) != 2`), the program prints the usage message and exits with
status 0, without reading the bibliography and without issuing any
request. -/
theorem py_main_usage (readBib : String → List String)
    (search fetch : String → Response) (apiKey : String)
    (argv : List String) (h : argv.length ≠ 2) :
    py_main readBib search fetch apiKey argv =
      .ok { printed := ["Usage:  " ++ argv.headD "" ++ " <bibtex_file>"],
            exitCode := 0, bibReads := [], searchReqs := [], fetchReqs := [] } := by
  simp [py_main, h]

/-- Witness for C8: a run with no argument at all. -/
theorem py_main_usage_witness :
    py_main (fun _ => []) emptyOracle emptyOracle "K" ["./bib_seer.py"] =
      .ok { printed := ["Usage:  ./bib_seer.py <bibtex_file>"],
            exitCode := 0, bibReads := [], searchReqs := [], fetchReqs := [] } :=
  py_main_usage (fun _ => []) emptyOracle emptyOracle "K" ["./bib_seer.py"]
    (by decide)

/-! ### C4: the report filter -/

/-- C4: the emitter drops a ranked entry exactly when its (normalized)
title is a member of the normalized bibliography-title set — so also when
the candidate only differs in case or punctuation — and prints every other
entry, in rank order, as the tab-separated row `reportRow`. -/
theorem reportLines_spec :
    (∀ (ns : List String) (ranked : List (String × Nat × Paper)),
      reportLines ns ranked =
        (ranked.filter
          (fun e => !decide (norm_title (e.2.2.title.getD "") ∈ ns))).map
          reportRow) ∧
    (∀ (bibTitles : List String) (t cand : String), t ∈ bibTitles →
      norm_title cand = norm_title t →
      norm_title cand ∈ bibTitles.map norm_title) := by
  constructor
  · intro ns ranked
    induction ranked with
    | nil => rfl
    | cons e rest ih =>
      by_cases h : norm_title (e.2.2.title.getD "") ∈ ns <;>
        simp [reportLines, h, List.filter_cons, ih]
  · intro bibTitles t cand ht h
    exact List.mem_map.mpr ⟨t, ht, h ▸ rfl⟩

/-- Witness for C4: a bibliography title is recognized through a
case/punctuation variant. -/
theorem reportLines_spec_witness :
    norm_title "Deep-Learning!" ∈ ["Deep Learning"].map norm_title :=
  reportLines_spec.2 ["Deep Learning"] "Deep Learning" "Deep-Learning!"
    (by decide) (by decide)

/-! ### C7: responses with no `organic_results` key -/

/-- C7: a title whose first-stage response has no `organic_results` key is
skipped with the citer map untouched and no error; likewise when the
second-stage response has no `organic_results` key. -/
theorem processTitle_no_organic (search fetch : String → Response)
    (apiKey : String) (st : AggState) (title : String) :
    ((search (quoteTitle title)).organic_results = none →
      processTitle search fetch apiKey st title =
        .ok { st with searchReqs := st.searchReqs ++ [quoteTitle title] }) ∧
    (∀ first rest link0,
      (search (quoteTitle title)).organic_results = some (first :: rest) →
      citedByTruthy (get_cited_by first) = true →
      (get_cited_by first).serpapi_scholar_link = some link0 →
      (fetch (rewriteCitedByLink apiKey link0)).organic_results = none →
      processTitle search fetch apiKey st title =
        .ok { st with
              searchReqs := st.searchReqs ++ [quoteTitle title],
              fetchReqs := st.fetchReqs ++ [rewriteCitedByLink apiKey link0] }) := by
  constructor
  · intro h
    simp [processTitle, h]
  · intro first rest link0 h1 h2 h3 h4
    simp [processTitle, h1, h2, h3, h4]

/-- Witness for C7: every response of `emptyOracle` lacks
`organic_results`. -/
theorem processTitle_no_organic_witness :
    processTitle emptyOracle emptyOracle "K" {} "T" =
      .ok { searchReqs := ["\"T\""] } :=
  (processTitle_no_organic emptyOracle emptyOracle "K" {} "T").1 rfl

/-! ### C3: missing optional fields -/

/-- C3 counterexample: a second-stage entry with neither `link` nor
`result_id` does not make the aggregator "silently skip that entry" — the
run aborts with a `KeyError` (modelled as `Except.error`), refuting the
claim at this concrete input. -/
theorem missing_result_id_raises :
    find_citers_from_titles searchC2 fetchC3 "K" ["T"] =
      .error "KeyError: result_id" := rfl

/-- C3 (amended): a response with no organic results or whose first result
has an empty `cited_by` section is silently skipped; an entry with no
`link` but a `result_id` contributes under the synthetic key; but an entry
with neither `link` nor `result_id` raises a `KeyError` instead of being
skipped. -/
theorem missing_fields_spec :
    (∀ search fetch apiKey st title,
      (search (quoteTitle title)).organic_results = none →
      processTitle search fetch apiKey st title =
        .ok { st with searchReqs := st.searchReqs ++ [quoteTitle title] }) ∧
    (∀ search fetch apiKey st title first rest,
      (search (quoteTitle title)).organic_results = some (first :: rest) →
      citedByTruthy (get_cited_by first) = false →
      processTitle search fetch apiKey st title =
        .ok { st with searchReqs := st.searchReqs ++ [quoteTitle title] }) ∧
    (∀ (p : Paper) rid, p.link = none → p.result_id = some rid →
      citerKey p = .ok ("No link found (id: " ++ rid ++ ")")) ∧
    (∀ p : Paper, p.link = none → p.result_id = none →
      citerKey p = .error "KeyError: result_id") := by
  refine ⟨?_, ?_, ?_, ?_⟩
  · intro search fetch apiKey st title h
    simp [processTitle, h]
  · intro search fetch apiKey st title first rest h1 h2
    simp [processTitle, h1, h2]
  · intro p rid h1 h2
    simp [citerKey, h1, h2]
  · intro p h1 h2
    simp [citerKey, h1, h2]

/-- Witness for C3 (amended), at concrete inputs: a first result with an
empty `cited_by` section is skipped, and the synthetic-key and error cases
of `citerKey` are exercised. -/
theorem missing_fields_spec_witness :
    processTitle (fun _ => { organic_results := some [paperBar] }) emptyOracle
        "K" {} "T" = .ok { searchReqs := ["\"T\""] } ∧
    citerKey { result_id := some "abc123" } =
      .ok "No link found (id: abc123)" ∧
    citerKey {} = .error "KeyError: result_id" :=
  ⟨missing_fields_spec.2.1 (fun _ => { organic_results := some [paperBar] })
      emptyOracle "K" {} "T" paperBar [] rfl rfl,
   missing_fields_spec.2.2.1 { result_id := some "abc123" } "abc123" rfl rfl,
   missing_fields_spec.2.2.2 {} rfl rfl⟩

/-! ### C6: the cited-by link rewrite -/

theorem stripQAux_true_of_no_newline (l : List Char) (h : '\n' ∉ l) :
    stripQAux true l = [] := by
  induction l with
  | nil => rfl
  | cons c cs ih =>
    have hc : c ≠ '\n' := fun hc => h (hc ▸ List.mem_cons_self c cs)
    have hcs : '\n' ∉ cs := fun hm => h (List.mem_cons_of_mem c hm)
    simp [stripQAux, hc, ih hcs]

theorem stripQAux_false_of_no_qe (l : List Char) (h : hasQE l = false) :
    stripQAux false l = l := by
  induction l with
  | nil => rfl
  | cons c cs ih =>
    match cs with
    | [] => rfl
    | c2 :: cs2 =>
      simp only [hasQE, Bool.or_eq_false_iff, Bool.and_eq_false_iff] at h
      have h1 : ¬(c = 'q' ∧ c2 = '=') := by
        rcases h.1 with h' | h' <;> simp_all
      simp [stripQAux, h1, ih (by simpa using h.2)]

theorem stripQAux_false_append (pre suf : List Char) (h : hasQE pre = false) :
    stripQAux false (pre ++ 'q' :: '=' :: suf) =
      pre ++ stripQAux true suf := by
  induction pre with
  | nil => simp [stripQAux]
  | cons c pre' ih =>
    match pre' with
    | [] =>
      simp only [List.nil_append, List.cons_append]
      simp [stripQAux]
    | c2 :: pre'' =>
      simp only [hasQE, Bool.or_eq_false_iff, Bool.and_eq_false_iff] at h
      have h1 : ¬(c = 'q' ∧ c2 = '=') := by
        rcases h.1 with h' | h' <;> simp_all
      simp only [List.cons_append]
      rw [show stripQAux false (c :: (c2 :: (pre'' ++ 'q' :: '=' :: suf))) =
        c :: stripQAux false (c2 :: (pre'' ++ 'q' :: '=' :: suf)) by
          simp [stripQAux, h1]]
      rw [show (c2 :: (pre'' ++ 'q' :: '=' :: suf)) =
        ((c2 :: pre'') ++ 'q' :: '=' :: suf) by simp]
      rw [ih (by simpa [hasQE] using h.2)]
      simp

/-- C6 counterexample: rewriting
`https://x.com/s?a=1&q=t&hl=en` removes the `hl=en` parameter that follows
the search term, so "other query parameters of the original link are
preserved" fails at this concrete input. -/
theorem rewrite_link_counterexample :
    rewriteCitedByLink "KEY" "https://x.com/s?a=1&q=t&hl=en" =
      "https://x.com/s?a=1&&api_key=KEY" ∧
    "hl=en".data <:+: "https://x.com/s?a=1&q=t&hl=en".data ∧
    ¬ "hl=en".data <:+: "https://x.com/s?a=1&&api_key=KEY".data :=
  ⟨rfl, by decide, by decide⟩

/-- C6 (amended): the rewrite removes everything from the first `q=` to
the end of the link and appends `&api_key=` and the credential — query
parameters before the search term are preserved, those after it are
dropped (when the link has no `q=` at all it is only suffixed) — and the
rewritten link is what the aggregator records as its second-stage
request. -/
theorem rewrite_link_spec :
    (∀ (apiKey : String) (pre suf : List Char),
      hasQE pre = false → '\n' ∉ suf →
      rewriteCitedByLink apiKey (String.mk (pre ++ 'q' :: '=' :: suf)) =
        String.mk pre ++ "&api_key=" ++ apiKey) ∧
    (∀ (apiKey link : String), hasQE link.data = false →
      rewriteCitedByLink apiKey link = link ++ "&api_key=" ++ apiKey) ∧
    (∀ search fetch apiKey st title first rest link0 st',
      (search (quoteTitle title)).organic_results = some (first :: rest) →
      citedByTruthy (get_cited_by first) = true →
      (get_cited_by first).serpapi_scholar_link = some link0 →
      processTitle search fetch apiKey st title = .ok st' →
      st'.fetchReqs = st.fetchReqs ++ [rewriteCitedByLink apiKey link0]) := by
  refine ⟨?_, ?_, ?_⟩
  · intro apiKey pre suf hpre hsuf
    simp only [rewriteCitedByLink, stripQ]
    rw [stripQAux_false_append pre suf hpre,
      stripQAux_true_of_no_newline suf hsuf]
    simp
  · intro apiKey link h
    simp only [rewriteCitedByLink, stripQ]
    rw [stripQAux_false_of_no_qe link.data h]
  · intro search fetch apiKey st title first rest link0 st' h1 h2 h3 hrun
    simp only [processTitle, h1, h2, h3, if_true] at hrun
    rcases hfetch : (fetch (rewriteCitedByLink apiKey link0)).organic_results with
      _ | entries
    · rw [hfetch] at hrun
      simp only [Except.ok.injEq] at hrun
      subst hrun
      rfl
    · rw [hfetch] at hrun
      rcases hfold : foldEntries st.citers entries with e | m
      · simp [hfold] at hrun
      · simp only [hfold, Except.ok.injEq] at hrun
        subst hrun
        rfl

/-- Witness for C6 (amended): a concrete link whose prefix has no `q=` and
whose stripped tail has no newline. -/
theorem rewrite_link_spec_witness :
    rewriteCitedByLink "K" (String.mk ("https://x/s?a=1&".data ++
        'q' :: '=' :: "t".data)) =
      String.mk "https://x/s?a=1&".data ++ "&api_key=" ++ "K" :=
  rewrite_link_spec.1 "K" "https://x/s?a=1&".data "t".data (by decide)
    (by decide)

/-! ### C1: the ranking order -/

theorem mergeSortPair {α : Type} (le : α → α → Bool) (a b : α) :
    [a, b].mergeSort le = if le a b then [a, b] else [b, a] := by
  rw [List.mergeSort]
  simp [List.splitInTwo, List.splitAt_eq, List.merge]

theorem rankCiters_pair (a b : String × Nat × Paper) :
    rankCiters [a, b] =
      if citerSortKey b ≤ citerSortKey a then [a, b] else [b, a] := by
  rw [rankCiters, mergeSortPair]
  by_cases h : citerSortKey b ≤ citerSortKey a <;> simp [h]

/-- C1 counterexample: on a concrete two-title run, a paper hit by one
title but with 2,000,000 total citations is ranked above a paper hit by
both titles, because the composite key is `1e6·hits + total`, not the
lexicographic pair — so the claimed lexicographic descending order fails
(the first output pair is not lexicographically ≥ the second). -/
theorem ranked_not_lexicographic :
    (find_citers_from_titles searchC1 fetchC1 "K" ["T1", "T2"]).map
      (fun r => r.1.map entryPair) = .ok [(1, 2000000), (2, 0)] ∧
    ¬ lexGe (1, 2000000) (2, 0) := by
  constructor
  · have h1 : aggregate searchC1 fetchC1 "K" ["T1", "T2"] =
      .ok { citers := [("a.com", 1, paperFoo), ("b.com", 2, paperBar)],
            searchReqs := ["\"T1\"", "\"T2\""],
            fetchReqs := ["L1&api_key=K", "L2&api_key=K"] } := rfl
    simp only [find_citers_from_titles, h1]
    rw [rankCiters_pair,
      if_pos (by decide :
        citerSortKey ("b.com", 2, paperBar) ≤
          citerSortKey ("a.com", 1, paperFoo))]
    rfl
  · decide

/-- C1 (amended): the ranked output is stable-sorted descending by the
composite key `1e6 · hit_count + total_citations`: it is pairwise
descending in that key, a permutation of the aggregation list, exact ties
keep the aggregation's relative order, and whenever every total-citation
count is below 1,000,000 the order is also lexicographically descending in
`(hit_count, total_citations)`. -/
theorem rankCiters_spec (l : List (String × Nat × Paper)) :
    (rankCiters l).Pairwise (fun a b => citerSortKey b ≤ citerSortKey a) ∧
    List.Perm (rankCiters l) l ∧
    (∀ a b, citerSortKey a = citerSortKey b → List.Sublist [a, b] l →
      List.Sublist [a, b] (rankCiters l)) ∧
    ((∀ e ∈ l, totalOf e.2.2 < 1000000) →
      (rankCiters l).Pairwise (fun a b => lexGe (entryPair a) (entryPair b))) := by
  have trans : ∀ a b c : String × Nat × Paper,
      decide (citerSortKey b ≤ citerSortKey a) = true →
      decide (citerSortKey c ≤ citerSortKey b) = true →
      decide (citerSortKey c ≤ citerSortKey a) = true := by
    intro a b c hab hbc
    simp only [decide_eq_true_eq] at *
    omega
  have total : ∀ a b : String × Nat × Paper,
      (decide (citerSortKey b ≤ citerSortKey a) ||
        decide (citerSortKey a ≤ citerSortKey b)) = true := by
    intro a b
    rcases Nat.le_total (citerSortKey b) (citerSortKey a) with h | h <;>
      simp [h]
  have hsorted : (rankCiters l).Pairwise
      (fun a b => citerSortKey b ≤ citerSortKey a) := by
    have h := List.sorted_mergeSort trans total l
    simp only [rankCiters]
    exact h.imp (fun h' => by simpa using h')
  refine ⟨hsorted, ?_, ?_, ?_⟩
  · exact List.mergeSort_perm l _
  · intro a b hkey hsub
    exact List.pair_sublist_mergeSort trans total (by simp [hkey]) hsub
  · intro hb
    have hmem : ∀ e, e ∈ rankCiters l → totalOf e.2.2 < 1000000 := by
      intro e he
      exact hb e (by simpa [rankCiters, List.mem_mergeSort] using he)
    refine hsorted.imp_of_mem ?_
    intro a b ha hbmem h
    have h1 := hmem a ha
    have h2 := hmem b hbmem
    simp only [citerSortKey] at h
    simp only [lexGe, entryPair]
    omega

/-- Witness for C1 (amended): two entries with equal composite keys stay
in their original relative order. -/
theorem rankCiters_spec_witness :
    List.Sublist [(("x", 1, ({} : Paper))), (("y", 1, ({} : Paper)))]
      (rankCiters [("x", 1, {}), ("y", 1, {})]) :=
  (rankCiters_spec [("x", 1, {}), ("y", 1, {})]).2.2.1
    ("x", 1, {}) ("y", 1, {}) (by decide) (List.Sublist.refl _)

/-! ### C2: the hit-count bound -/

/-- C2 counterexample: a single-title run whose second-stage response
lists the same citing paper twice stores hit count 2, exceeding the number
of input titles (1) — the code increments once per occurrence in the
response, not once per title. -/
theorem hit_count_exceeds_titles :
    (aggregate searchC2 fetchC2 "K" ["T"]).map (fun st => st.citers) =
      .ok [("b.com", 2, paperBar)] ∧
    ¬ (2 ≤ (["T"] : List String).length) :=
  ⟨rfl, by decide⟩

theorem countOf_updateCiter (m : List (String × Nat × Paper)) (k k' : String)
    (p : Paper) :
    countOf (updateCiter m k p) k' =
      if k = k' then countOf m k' + 1 else countOf m k' := by
  induction m with
  | nil =>
    by_cases h : k = k' <;> simp [updateCiter, countOf, h]
  | cons e rest ih =>
    obtain ⟨k2, c, p2⟩ := e
    by_cases h1 : k2 = k
    · subst h1
      simp only [updateCiter, if_pos rfl]
      by_cases h2 : k2 = k' <;> simp [countOf, h2]
    · simp only [updateCiter, if_neg h1]
      by_cases h2 : k2 = k'
      · subst h2
        have h3 : ¬ k = k2 := fun h => h1 h.symm
        simp [countOf, h3]
      · simp [countOf, h2, ih]

theorem foldEntries_countOf_le (entries : List Paper) :
    ∀ m m' k, foldEntries m entries = .ok m' →
      countOf m' k ≤ countOf m k +
        entries.countP (fun e => decide (citerKey e = .ok k)) := by
  induction entries with
  | nil =>
    intro m m' k h
    simp only [foldEntries, Except.ok.injEq] at h
    subst h
    simp
  | cons p rest ih =>
    intro m m' k h
    simp only [foldEntries] at h
    rcases hk : citerKey p with e | kp
    · simp [hk] at h
    · simp only [hk] at h
      have hrec := ih (updateCiter m kp p) m' k h
      rw [countOf_updateCiter] at hrec
      rw [List.countP_cons]
      by_cases hkk : kp = k
      · subst hkk
        simp only [eq_self_iff_true, if_true] at hrec
        simp [hk]
        omega
      · simp only [if_neg hkk] at hrec
        have hne : ¬ (citerKey p = Except.ok k) := by
          rw [hk]
          simp [hkk]
        simp [hne]
        omega

theorem countP_citerKey_le_one (entries : List Paper) (k : String)
    (h : entries.Pairwise (fun p q => citerKey p ≠ citerKey q)) :
    entries.countP (fun e => decide (citerKey e = .ok k)) ≤ 1 := by
  induction entries with
  | nil => simp
  | cons p rest ih =>
    rcases List.pairwise_cons.mp h with ⟨hp, hrest⟩
    rw [List.countP_cons]
    by_cases hpk : citerKey p = .ok k
    · have h0 : rest.countP (fun e => decide (citerKey e = .ok k)) = 0 := by
        rw [List.countP_eq_zero]
        intro q hq
        simp only [decide_eq_true_eq]
        intro hqk
        exact hp q hq (hpk.trans hqk.symm)
      simp [h0, hpk]
    · simp [hpk, ih hrest]

theorem processTitle_countOf_le (search fetch : String → Response)
    (apiKey : String) (hdist : ∀ u, keysDistinct (fetch u))
    (st st' : AggState) (title k : String)
    (h : processTitle search fetch apiKey st title = .ok st') :
    countOf st'.citers k ≤ countOf st.citers k + 1 := by
  rcases h1 : (search (quoteTitle title)).organic_results with _ | rs
  · simp only [processTitle, h1, Except.ok.injEq] at h
    subst h
    exact Nat.le_add_right _ 1
  · rcases rs with _ | ⟨first, rest⟩
    · simp only [processTitle, h1, Except.ok.injEq] at h
      subst h
      exact Nat.le_add_right _ 1
    · rcases htr : citedByTruthy (get_cited_by first) with _ | _
      · simp only [processTitle, h1, htr, Bool.false_eq_true, if_false,
          Except.ok.injEq] at h
        subst h
        exact Nat.le_add_right _ 1
      · rcases hlink : (get_cited_by first).serpapi_scholar_link with _ | link0
        · simp [processTitle, h1, htr, hlink] at h
        · rcases hfetch : (fetch (rewriteCitedByLink apiKey link0)).organic_results
            with _ | entries
          · simp only [processTitle, h1, htr, hlink, hfetch, if_true,
              Except.ok.injEq] at h
            subst h
            exact Nat.le_add_right _ 1
          · rcases hfold : foldEntries st.citers entries with e | m
            · simp [processTitle, h1, htr, hlink, hfetch, hfold] at h
            · simp only [processTitle, h1, htr, hlink, hfetch, hfold, if_true,
                Except.ok.injEq] at h
              subst h
              have hd := hdist (rewriteCitedByLink apiKey link0)
              simp only [keysDistinct, hfetch] at hd
              have hb := foldEntries_countOf_le entries st.citers m k hfold
              have hc := countP_citerKey_le_one entries k hd
              show countOf m k ≤ countOf st.citers k + 1
              omega

theorem runTitles_countOf_le (search fetch : String → Response)
    (apiKey : String) (hdist : ∀ u, keysDistinct (fetch u)) :
    ∀ (ts : List String) (st st' : AggState) (k : String),
      runTitles search fetch apiKey st ts = .ok st' →
      countOf st'.citers k ≤ countOf st.citers k + ts.length := by
  intro ts
  induction ts with
  | nil =>
    intro st st' k h
    simp only [runTitles, Except.ok.injEq] at h
    subst h
    simp
  | cons t ts ih =>
    intro st st' k h
    simp only [runTitles] at h
    rcases hp : processTitle search fetch apiKey st t with e | st1
    · simp [hp] at h
    · simp only [hp] at h
      have h1 := processTitle_countOf_le search fetch apiKey hdist st st1 t k hp
      have h2 := ih st1 st' k h
      simp only [List.length_cons]
      omega

/-- C2 (amended): provided every second-stage response lists pairwise
distinct aggregation keys, the stored hit count of any key in the
aggregate map never exceeds the number of input titles. -/
theorem aggregate_count_le (search fetch : String → Response)
    (apiKey : String) (titles : List String) (st : AggState) (k : String)
    (hdist : ∀ u, keysDistinct (fetch u))
    (h : aggregate search fetch apiKey titles = .ok st) :
    countOf st.citers k ≤ titles.length := by
  have h1 := runTitles_countOf_le search fetch apiKey hdist
    (titles.take 100000) {} st k h
  have h0 : countOf (({} : AggState)).citers k = 0 := rfl
  have h2 : (titles.take 100000).length ≤ titles.length := by
    simp [List.length_take]
  omega

/-- Witness for C2 (amended): a one-title run against empty responses. -/
theorem aggregate_count_le_witness :
    countOf ([] : List (String × Nat × Paper)) "k" ≤
      (["T"] : List String).length :=
  aggregate_count_le emptyOracle emptyOracle "K" ["T"]
    { citers := [], searchReqs := ["\"T\""], fetchReqs := [] } "k"
    (fun _ => True.intro) rfl
